import Mathlib

set_option maxRecDepth 40000

/-!
Verification development for the continuous-generation streaming scheduler in
`src/worker/worker.py` (class `InfiniteFlux2StreamHandlers`).

The Python code is shallowly embedded as executable Lean definitions:

* Python's dynamically typed parameter values are modelled by `PVal`
  (strings, ints, floats as rationals, booleans).
* The mutable `InfiniteFlux2Config` dataclass becomes an immutable record;
  the in-place field assignments of `update_params` become sequential record
  updates, and an exception raised mid-way returns the partially updated
  record (mirroring the partially mutated `self.cfg` that a Python exception
  leaves behind).
* `asyncio` machinery is modelled by explicit state passing: the scheduler
  loop becomes a fold over a list of per-attempt outcomes, the frame sender
  becomes a trace-producing recursion, and the `asyncio.Lock` protocol
  becomes a small labelled transition system.
* External collaborators (the Flux2 pipeline, the text-enhancement model,
  `random.randint`) are modelled at their interface: the pipeline invocation
  is reified as the record of arguments the worker passes to it, the
  enhancement model is an arbitrary function of the inputs the worker feeds
  it, and `random.randint lo hi` consumes an arbitrary entropy value and
  reduces it into the inclusive range `[lo, hi]`.
-/

/-- A Python value, as far as the worker's parameter handling observes it:
strings, ints, floats (modelled as rationals) and booleans. -/
inductive PVal where
  | pstr (s : String)
  | pint (n : Int)
  | pfloat (q : ℚ)
  | pbool (b : Bool)
deriving DecidableEq

/-- The `InfiniteFlux2Config` dataclass of `worker.py` (lines 54-69) with its
default values.  Fields that Python stores without coercion (`prompt`,
`seed_adjustment`, `enhance_guidance`) keep the dynamic `PVal` type, since
`update_params` assigns whatever value the request carries; fields the code
coerces (`int(...)`, `float(...)`, the truthy-string test) get the coerced
type. -/
structure InfiniteFlux2Config where
  prompt : PVal := .pstr "abstract watercolor sunset"
  height : Int := 1024
  width : Int := 1024
  reference_images : Option PVal := none
  steps : Int := 28
  guidance_scale : ℚ := 4
  seed : Int := 42
  seed_adjustment : PVal := .pstr "increment"
  enhance_prompt : Bool := false
  enhance_guidance : PVal := .pstr "none"
  processed_reference_images : Option PVal := none
  prompt_guidance_doc : String := ""
deriving DecidableEq

/-- Parse a non-empty run of decimal digits. -/
def parseDigits : List Char → Option Nat
  | [] => none
  | cs => cs.foldl (fun acc c => match acc with
      | none => none
      | some n => if c.isDigit then some (n * 10 + (c.toNat - 48)) else none)
      (some 0)

/-- Python `int(str)` on a simple decimal string: optional sign followed by
digits.  (Python additionally strips whitespace and allows underscores;
those inputs do not occur in any claim.) -/
def parseIntStr (s : String) : Option Int :=
  match s.toList with
  | '-' :: rest => (parseDigits rest).map (fun n => -(n : Int))
  | '+' :: rest => (parseDigits rest).map (fun n => (n : Int))
  | cs => (parseDigits cs).map (fun n => (n : Int))

/-- Truncation of a rational toward zero, as Python `int(float)` does. -/
def ratTruncToward0 (q : ℚ) : Int :=
  if 0 ≤ q then ⌊q⌋ else ⌈q⌉

/-- Python `int(x)`: `none` models a raised `ValueError`/`TypeError`. -/
def pyInt : PVal → Option Int
  | .pint n => some n
  | .pfloat q => some (ratTruncToward0 q)
  | .pstr s => parseIntStr s
  | .pbool b => some (if b then 1 else 0)

/-- Python `float(str)` on a simple decimal string `[sign]digits[.digits]`. -/
def parseFloatStr (s : String) : Option ℚ :=
  let core : List Char → Option ℚ := fun cs =>
    match cs.splitOn '.' with
    | [intPart] => (parseDigits intPart).map (fun n => (n : ℚ))
    | [intPart, fracPart] =>
        match parseDigits intPart, parseDigits fracPart with
        | some n, some f => some ((n : ℚ) + (f : ℚ) / ((10 : ℚ) ^ fracPart.length))
        | _, _ => none
    | _ => none
  match s.toList with
  | '-' :: rest => (core rest).map (fun q => -q)
  | '+' :: rest => core rest
  | cs => core cs

/-- Python `float(x)`: `none` models a raised `ValueError`/`TypeError`. -/
def pyFloat : PVal → Option ℚ
  | .pfloat q => some q
  | .pint n => some (n : ℚ)
  | .pstr s => parseFloatStr s
  | .pbool b => some (if b then 1 else 0)

/-- ASCII lowercasing, written over the character list so that it reduces in
the kernel (the behaviour of Python `str.lower()` on the ASCII inputs the
worker compares against). -/
def strLower (s : String) : String :=
  String.mk (s.toList.map Char.toLower)

/-- Python `x.lower()`: only strings have the method; `none` models the
`AttributeError` raised on any other value. -/
def pyLower : PVal → Option String
  | .pstr s => some (strLower s)
  | _ => none

/-- The truthy-string test of `update_params` (worker.py line 516):
membership in `("yes", "true", "1", "y", "on")`. -/
def truthyString (s : String) : Bool :=
  s = "yes" || s = "true" || s = "1" || s = "y" || s = "on"

/-- A parameter-update request: an association list of field names to
values, looked up with `params.get`. -/
def Params := List (String × PVal)

/-- `params.get(key, default)`. -/
def pget (ps : Params) (key : String) (default : PVal) : PVal :=
  match List.lookup key (ps : List (String × PVal)) with
  | some v => v
  | none => default

/-- Result of a call to `update_params`: `ok = false` means the call raised,
and `cfg` is the configuration left behind — note that Python's field-by-field
assignment means the configuration at the point of the raise keeps any fields
already assigned. -/
structure UpdateResult where
  ok : Bool
  cfg : InfiniteFlux2Config
deriving DecidableEq

/-- `update_params` (worker.py lines 498-519).  The source first unwraps a
nested `"params"` key; we model the flat form the assignments consume.  Each
statement `self.cfg.f = coerce(params.get("f", self.cfg.f))` becomes a record
update; a failing coercion aborts with the fields assigned so far. -/
def update_params (cfg : InfiniteFlux2Config) (ps : Params) : UpdateResult :=
  match pyInt (pget ps "height" (.pint cfg.height)) with
  | none => ⟨false, cfg⟩
  | some h =>
  let cfg := { cfg with height := h }
  match pyInt (pget ps "width" (.pint cfg.width)) with
  | none => ⟨false, cfg⟩
  | some w =>
  let cfg := { cfg with width := w }
  let cfg := { cfg with prompt := pget ps "prompt" cfg.prompt }
  match pyInt (pget ps "steps" (.pint cfg.steps)) with
  | none => ⟨false, cfg⟩
  | some st =>
  let cfg := { cfg with steps := st }
  match pyFloat (pget ps "guidance_scale" (.pfloat cfg.guidance_scale)) with
  | none => ⟨false, cfg⟩
  | some g =>
  let cfg := { cfg with guidance_scale := g }
  match pyInt (pget ps "seed" (.pint cfg.seed)) with
  | none => ⟨false, cfg⟩
  | some sd =>
  let cfg := { cfg with seed := sd }
  let cfg := { cfg with seed_adjustment := pget ps "seed_adjustment" cfg.seed_adjustment }
  match pyLower (pget ps "enhance_prompt" (.pstr "no")) with
  | none => ⟨false, cfg⟩
  | some b =>
  let cfg := { cfg with enhance_prompt := truthyString b }
  let cfg := { cfg with enhance_guidance := pget ps "enhance_guidance" cfg.enhance_guidance }
  ⟨true, { cfg with processed_reference_images := none }⟩

/-! ## Placeholder generator (`create_placeholder_frame`, worker.py 153-185) -/

/-- An RGB colour. -/
def Color := Nat × Nat × Nat
deriving DecidableEq

def black : Color := (0, 0, 0)

def white : Color := (255, 255, 255)

/-- `is_black = (row + col) % 2 == 0` and the two fill colours
(worker.py lines 172-173). -/
def squareColor (row col : Nat) : Color :=
  if (row + col) % 2 = 0 then black else white

/-- The effect of the innermost double loop of `create_placeholder_frame`
(worker.py lines 181-183): overwrite every pixel `(x, y)` with
`row * s ≤ y < min ((row+1)*s) h` and `col * s ≤ x < min ((col+1)*s) w`
by the square's colour.  The image is a function from `(x, y)` to colour,
matching `img.putpixel((x, y), color)`. -/
def fillSquare (h w s row col : Nat) (img : Nat → Nat → Color) : Nat → Nat → Color :=
  fun x y =>
    if row * s ≤ y ∧ y < min ((row + 1) * s) h ∧ col * s ≤ x ∧ x < min ((col + 1) * s) w then
      squareColor row col
    else img x y

/-- `for col in range(n)` painting squares of row `row`; later iterations
overwrite earlier ones (they are disjoint, but the order is the source's). -/
def paintCols (h w s row : Nat) : Nat → (Nat → Nat → Color) → (Nat → Nat → Color)
  | 0, img => img
  | n + 1, img => fillSquare h w s row n (paintCols h w s row n img)

/-- `for row in range(n)`, each painting `ncols` squares. -/
def paintRows (h w s ncols : Nat) : Nat → (Nat → Nat → Color) → (Nat → Nat → Color)
  | 0, img => img
  | n + 1, img => paintCols h w s n ncols (paintRows h w s ncols n img)

/-- `square_size = min(width, height) // target_squares_per_dim` with
`target_squares_per_dim = 16` (worker.py lines 162-163). -/
def square_size (height width : Nat) : Nat :=
  min width height / 16

/-- The pixel grid produced by the body of `create_placeholder_frame` for a
`height × width` image: start from the all-black image `Image.new` creates,
compute `square_size`, `num_rows = height // square_size`,
`num_cols = width // square_size`, and paint the `num_rows × num_cols`
checkerboard squares. -/
def placeholder_pixels (height width : Nat) : Nat → Nat → Color :=
  paintRows height width (square_size height width)
    (width / square_size height width) (height / square_size height width)
    (fun _ _ => black)

/-- The errors `create_placeholder_frame` can raise: `ZeroDivisionError`
from `height // square_size` when `square_size` is zero, and the
`ValueError` `PIL.Image.new` raises on a negative size. -/
inductive PlaceholderError where
  | zeroDivision
  | valueError
deriving DecidableEq

/-- `create_placeholder_frame` (worker.py lines 153-185) on configured
`height`/`width`: `Image.new("RGB", (width, height))` rejects negative
sizes; `num_rows = height // square_size` raises `ZeroDivisionError` when
`square_size = min(width, height) // 16` is zero; otherwise the checkerboard
is painted and stored. -/
def create_placeholder_frame (height width : Int) : Except PlaceholderError (Nat → Nat → Color) :=
  if height < 0 ∨ width < 0 then .error .valueError
  else if square_size height.toNat width.toNat = 0 then .error .zeroDivision
  else .ok (placeholder_pixels height.toNat width.toNat)

/-- The checkerboard described by the specification's words for claim C9:
the square side is `min(height, width) // 16` and the square at grid
position `(row, col) = (y // s, x // s)` is black exactly when `row + col`
is even, clipped only by the image boundary. -/
def specCheckerboardPixel (height width : Nat) (x y : Nat) : Color :=
  let s := min height width / 16
  if (y / s + x / s) % 2 = 0 then black else white

/-- One colour component (`c = 0,1,2` for R,G,B) of the `[1, H, W, 3]`
tensor `pil_to_bhwc` (worker.py lines 48-52) produces: `T.ToTensor` maps the
8-bit component at pixel `(x, y)` to `value / 255`, `permute`/`unsqueeze`
lay it out at index `[0, y, x, c]`. -/
def colorComp (c : Color) : Nat → Nat
  | 0 => c.1
  | 1 => c.2.1
  | _ => c.2.2

/-- Entry `[0, y, x, c]` of the placeholder tensor. -/
def placeholderTensorEntry (height width : Nat) (y x c : Nat) : ℚ :=
  (colorComp (placeholder_pixels height width x y) c : ℚ) / 255

/-- The `[B, H, W, C]` shape `pil_to_bhwc` gives the placeholder tensor. -/
def placeholderTensorShape (height width : Nat) : Nat × Nat × Nat × Nat :=
  (1, height, width, 3)

/-! ## Worker state, scheduler loop and lifecycle -/

/-- A value held by the single-slot `current_frame` variable: either the
placeholder tensor built for some `height × width`, or the `pil_to_bhwc`
tensor of an image returned by a completed pipeline call (identified by an
abstract image id). -/
inductive FrameVal where
  | placeholder (height width : Int)
  | generated (img : Nat)
deriving DecidableEq

/-- The mutable attributes of `InfiniteFlux2StreamHandlers` (worker.py
lines 74-104) that the claims are about.  The `timestamp_increment`
attribute is the constant `time_base // fps` and is modelled as the
definition `timestamp_increment` below. -/
structure WorkerState where
  cfg : InfiniteFlux2Config
  runner_ready : Bool
  current_frame : FrameVal
  placeholder_frame : FrameVal
  interrupt_requested : Bool
  inference_in_progress : Bool
  frame_queue : List FrameVal
  background_tasks : List Nat
  background_task_started : Bool
  frame_timestamp : Int
deriving DecidableEq

/-- The handler state right after `__init__`: default configuration, not
ready, no tasks, empty queue.  (`current_frame`/`placeholder_frame` are
`None` until `load`/`on_start` run; we seed them with the default-dimension
placeholder value, which no claim observes before `on_start`.) -/
def initWorkerState : WorkerState where
  cfg := {}
  runner_ready := false
  current_frame := .placeholder 1024 1024
  placeholder_frame := .placeholder 1024 1024
  interrupt_requested := false
  inference_in_progress := false
  frame_queue := []
  background_tasks := []
  background_task_started := false
  frame_timestamp := 0

/-- `self.time_base = 90000` (worker.py line 98). -/
def time_base : Int := 90000

/-- `self.fps = 16` (worker.py line 100). -/
def fps : Int := 16

/-- `self.timestamp_increment = self.time_base // self.fps`
(worker.py lines 101 and 273). -/
def timestamp_increment : Int := time_base / fps

/-- `on_start` (worker.py lines 248-278): raise unless the runner is ready,
apply the initial parameters, rebuild the placeholder from the (updated)
configured dimensions, reset the frame timestamp, and spawn the frame-sender
and generator tasks.  `none` models a raised exception (the `except` clause
logs and re-raises). -/
def on_start (s : WorkerState) (params : Params) : Option WorkerState :=
  if s.runner_ready = false then none
  else
    match update_params s.cfg params with
    | ⟨false, _⟩ => none
    | ⟨true, cfg⟩ =>
      match create_placeholder_frame cfg.height cfg.width with
      | .error _ => none
      | .ok _ =>
        some { s with
          cfg := cfg
          placeholder_frame := FrameVal.placeholder cfg.height cfg.width
          current_frame := FrameVal.placeholder cfg.height cfg.width
          background_tasks := s.background_tasks ++ [0, 1]
          background_task_started := false
          frame_timestamp := 0 }

/-- Outcome of one pipeline invocation as `_generate_images_for_video`
observes it: either `self.pipe(...)` returns an image (identified by an
abstract id), or the call raises — `RuntimeError("Inference was
interrupted")` for an interrupted run, any other exception for a failure.
Both raising cases land in the same `except` clause of the loop. -/
inductive Outcome where
  | success (img : Nat)
  | interrupted
  | failure
deriving DecidableEq

/-- `random.randint lo hi`: an arbitrary entropy value reduced into the
inclusive range `[lo, hi]`. -/
def pyRandint (lo hi : Int) (entropy : Nat) : Int :=
  lo + (entropy : Int) % (hi - lo + 1)

/-- The seed-adjustment step of `_generate_images_for_video` (worker.py
lines 364-370), applied to the live configuration after a successful
inference. -/
def adjustSeed (cfg : InfiniteFlux2Config) (entropy : Nat) : InfiniteFlux2Config :=
  if cfg.seed_adjustment = .pstr "increment" then { cfg with seed := cfg.seed + 1 }
  else if cfg.seed_adjustment = .pstr "decrement" then { cfg with seed := cfg.seed - 1 }
  else if cfg.seed_adjustment = .pstr "random" then
    { cfg with seed := pyRandint 0 (2 ^ 32 - 1) entropy }
  else cfg

/-- One iteration of the `_generate_images_for_video` loop body (worker.py
lines 353-382): clear the interrupt flag, run the inference under the lock;
on success advance the seed in the live configuration and overwrite
`current_frame` with the new image's tensor; a raised exception (interrupted
or failed run) skips both and the loop continues after a back-off sleep. -/
def generationStep (s : WorkerState) (o : Outcome) (entropy : Nat) : WorkerState :=
  let s := { s with interrupt_requested := false }
  match o with
  | .success img =>
      { s with cfg := adjustSeed s.cfg entropy, current_frame := .generated img }
  | .interrupted => s
  | .failure => s

/-- Run the scheduler loop over a list of per-attempt outcomes (each with
the entropy its `random.randint` call would consume). -/
def runGenerations (s : WorkerState) : List (Outcome × Nat) → WorkerState
  | [] => s
  | (o, e) :: rest => runGenerations (generationStep s o e) rest

/-- The image id of the last successful attempt in the list, if any. -/
def lastSuccess : List (Outcome × Nat) → Option Nat
  | [] => none
  | (o, _) :: rest =>
      match lastSuccess rest with
      | some img => some img
      | none => match o with
        | .success img => some img
        | _ => none

/-! ## The inference call (`_run_inference_with_callback`, worker.py 399-445) -/

/-- The argument record of the `self.pipe(...)` invocation (worker.py lines
421-430): the observable input handed to the external synthesis engine. -/
structure PipeCall where
  seed : Int
  image : Option PVal
  height : Int
  width : Int
  prompt : PVal
  guidance_scale : ℚ
  steps : Int
deriving DecidableEq

/-- The pipeline arguments `_run_inference_with_callback` assembles.  `snap`
is the `copy.deepcopy(self.cfg)` taken at the start of the run (worker.py
line 408); `live` is `self.cfg` at the moment `enhance_prompt` executes.
Every argument is read from the snapshot — except that the `enhance_prompt`
helper (worker.py lines 116-131) builds its instruction from
`self.cfg.enhance_guidance` and `self.cfg.prompt_guidance_doc`, i.e. from
the live configuration.  `enhanceFn` is the external text model: an
arbitrary function of the base prompt, the guidance value and the guidance
document the worker feeds it. -/
def run_inference_call (enhanceFn : PVal → PVal → String → PVal)
    (snap live : InfiniteFlux2Config) : PipeCall :=
  let prompt :=
    if snap.enhance_prompt then enhanceFn snap.prompt live.enhance_guidance live.prompt_guidance_doc
    else snap.prompt
  { seed := snap.seed
    image := snap.processed_reference_images
    height := snap.height
    width := snap.width
    prompt := prompt
    guidance_scale := snap.guidance_scale
    steps := snap.steps }

/-! ## `on_stop` (worker.py lines 280-331) -/

/-- Outcome of the bounded wait `asyncio.wait_for(event.wait(), timeout=20.0)`:
the completion event fired in time, or `asyncio.TimeoutError` was raised
(and caught). -/
inductive WaitOutcome where
  | completed
  | timedOut
deriving DecidableEq

/-- The grace period `on_stop` waits for a running inference: `timeout=20.0`
(worker.py line 294). -/
def stop_grace_period : ℚ := 20

/-- What `on_stop` logged: whether it waited (and with which timeout), and
whether the timeout elapsed — which is logged as a warning, never raised. -/
structure StopLog where
  waitTimeout : Option ℚ
  timeoutLogged : Bool
deriving DecidableEq

/-- `on_stop` (worker.py lines 280-331): set the interrupt flag; if an
inference is in progress wait up to `stop_grace_period` for its completion
event, proceeding regardless on timeout; drain the frame queue; cancel and
clear the background tasks.  The function is total: every exception the
body can encounter (`TimeoutError`, `QueueEmpty`) is caught inside it. -/
def on_stop (s : WorkerState) (w : WaitOutcome) : WorkerState × StopLog :=
  let s := { s with interrupt_requested := true }
  let log : StopLog :=
    if s.inference_in_progress then
      ⟨some stop_grace_period, w = .timedOut⟩
    else ⟨none, false⟩
  let s := { s with frame_queue := [] }
  let s := { s with background_tasks := [], background_task_started := false }
  (s, log)

/-! ## The frame-emission loop (`_send_frames`, worker.py 447-496) -/

/-- A frame handed to `self.processor.send_input_frame`: a video frame (the
wrapped `current_frame` tensor with its timestamp) or a silent audio frame
(carrying only its timestamp; the tensor, format and layout are fixed). -/
inductive Emitted where
  | video (frame : FrameVal) (ts : Int)
  | audio (ts : Int)
deriving DecidableEq

/-- The emissions of `n` iterations of the `_send_frames` loop (worker.py
lines 457-493), started at tick index `k` with current timestamp `ts`:
each tick wraps the current frame (an arbitrary function `frames` of the
tick index, since the generator overwrites the slot concurrently) with the
current timestamp, emits it, emits a silent audio frame at the same
timestamp when `noAudio` (i.e. `self.no_audio_in_stream`) is set, and
advances the timestamp by `timestamp_increment`. -/
def send_frames_trace (frames : Nat → FrameVal) (noAudio : Bool) :
    Nat → Nat → Int → List Emitted
  | _, 0, _ => []
  | k, n + 1, ts =>
      (Emitted.video (frames k) ts :: if noAudio then [Emitted.audio ts] else []) ++
        send_frames_trace frames noAudio (k + 1) n (ts + timestamp_increment)

/-! ## The inference lock (`self.inference_lock`, an `asyncio.Lock`)

`_generate_images_for_video` wraps the run step in
`async with self.inference_lock` (worker.py line 360).  The lock is created
once in `__init__` and shared by every scheduler iteration of every stream
session.  We model the iterations as tasks of a labelled transition system:
a task requests the lock, acquires it only when no task holds it
(`asyncio.Lock.acquire` suspends otherwise), runs the inference while
holding it, and releases it when the `async with` block exits. -/

/-- Where a scheduler iteration stands relative to the execution gate. -/
inductive JobPhase where
  | idle
  | waiting
  | running
  | done
deriving DecidableEq

/-- The lock holder and the phase of every scheduler iteration (tasks are
identified by naturals). -/
structure SchedState where
  lockHolder : Option Nat
  phase : Nat → JobPhase

/-- The initial state: the lock is free and no iteration has started. -/
def initSched : SchedState where
  lockHolder := none
  phase := fun _ => .idle

/-- The transitions of the scheduler iterations around the inference lock:
`request` reaches the `async with self.inference_lock` statement, `acquire`
obtains the lock — only possible while no task holds it — and enters the
run step, `release` leaves the `async with` block, `restart` begins the next
loop iteration. -/
inductive SchedStep : SchedState → SchedState → Prop where
  | request (s : SchedState) (t : Nat) :
      s.phase t = .idle →
      SchedStep s { s with phase := fun u => if u = t then .waiting else s.phase u }
  | acquire (s : SchedState) (t : Nat) :
      s.phase t = .waiting → s.lockHolder = none →
      SchedStep s
        { lockHolder := some t, phase := fun u => if u = t then .running else s.phase u }
  | release (s : SchedState) (t : Nat) :
      s.phase t = .running →
      SchedStep s
        { lockHolder := none, phase := fun u => if u = t then .done else s.phase u }
  | restart (s : SchedState) (t : Nat) :
      s.phase t = .done →
      SchedStep s { s with phase := fun u => if u = t then .idle else s.phase u }

/-- States reachable from `initSched` by scheduler transitions. -/
inductive SchedReachable : SchedState → Prop where
  | init : SchedReachable initSched
  | step {s s' : SchedState} : SchedReachable s → SchedStep s s' → SchedReachable s'


/-! ## Concrete states used by the witnesses below -/

/-- The handler state after a successful `load`: ready, defaults otherwise. -/
def w0 : WorkerState := { initWorkerState with runner_ready := true }

/-- The session state `on_start w0 []` produces. -/
def w1 : WorkerState :=
  { w0 with
    cfg := (update_params w0.cfg []).cfg
    placeholder_frame := FrameVal.placeholder 1024 1024
    current_frame := FrameVal.placeholder 1024 1024
    background_tasks := [0, 1]
    background_task_started := false
    frame_timestamp := 0 }

/-- Lock state after scheduler iteration `0` reaches the `async with`. -/
def schedW1 : SchedState :=
  { initSched with phase := fun u => if u = 0 then JobPhase.waiting else initSched.phase u }

/-- Lock state after scheduler iteration `0` acquires the lock. -/
def schedW2 : SchedState :=
  { lockHolder := some 0, phase := fun u => if u = 0 then JobPhase.running else schedW1.phase u }

/-- A configuration whose jobs run with prompt enhancement enabled. -/
def enhCfg : InfiniteFlux2Config := { enhance_prompt := true }

/-- A mid-job parameter update changing only the enhancement guidance. -/
def guidanceUpdate : Params := [("enhance_guidance", PVal.pstr "make it red")]

/-- A possible behaviour of the external prompt-enhancement model: echo the
guidance text it is instructed with.  (The engine is opaque to the worker;
the claim must hold for every such behaviour to hold at all.) -/
def echoGuidance : PVal → PVal → String → PVal := fun _ g _ => g

/-- An update request with a well-formed `height` followed by a `width`
value that `int(...)` rejects. -/
def badUpdate : Params := [("height", PVal.pstr "512"), ("width", PVal.pstr "not a number")]
/-- The inductive invariant: every iteration in the run step holds the lock. -/
def runningHoldsLock (s : SchedState) : Prop :=
  ∀ t, s.phase t = .running → s.lockHolder = some t

theorem runningHoldsLock_init : runningHoldsLock initSched := by
  intro t h
  simp [initSched] at h

theorem runningHoldsLock_step {s s' : SchedState}
    (inv : runningHoldsLock s) (st : SchedStep s s') : runningHoldsLock s' := by
  cases st with
  | request t ht =>
      intro u hu
      simp only at hu ⊢
      by_cases hut : u = t
      · rw [hut, if_pos rfl] at hu
        exact absurd hu (by simp)
      · rw [if_neg hut] at hu
        exact inv u hu
  | acquire t ht hlock =>
      intro u hu
      simp only at hu ⊢
      by_cases hut : u = t
      · rw [hut]
      · rw [if_neg hut] at hu
        have := inv u hu
        rw [hlock] at this
        exact absurd this (by simp)
  | release t ht =>
      intro u hu
      simp only at hu ⊢
      by_cases hut : u = t
      · rw [hut, if_pos rfl] at hu
        exact absurd hu (by simp)
      · rw [if_neg hut] at hu
        have hu' := inv u hu
        have ht' := inv t ht
        rw [ht'] at hu'
        exact absurd (Option.some.inj hu').symm hut
  | restart t ht =>
      intro u hu
      simp only at hu ⊢
      by_cases hut : u = t
      · rw [hut, if_pos rfl] at hu
        exact absurd hu (by simp)
      · rw [if_neg hut] at hu
        exact inv u hu

theorem runningHoldsLock_reachable {s : SchedState} (h : SchedReachable s) :
    runningHoldsLock s := by
  induction h with
  | init => exact runningHoldsLock_init
  | step _ st ih => exact runningHoldsLock_step ih st

/-! ## Characterizing the painted checkerboard -/

/-- What painting the first `n` squares of row `row` leaves at pixel
`(x, y)`: the parity colour of the square containing `x` if `(x, y)` lies
in the painted band, the underlying image otherwise. -/
theorem paintCols_apply (h w s row : Nat) :
    ∀ (n : Nat) (img : Nat → Nat → Color) (x y : Nat),
      paintCols h w s row n img x y =
        if row * s ≤ y ∧ y < min ((row + 1) * s) h ∧ x < n * s ∧ x < w then
          squareColor row (x / s)
        else img x y := by
  intro n
  induction n with
  | zero =>
      intro img x y
      simp [paintCols]
  | succ n ih =>
      intro img x y
      show fillSquare h w s row n (paintCols h w s row n img) x y = _
      simp only [fillSquare]
      rw [ih]
      by_cases hC : row * s ≤ y ∧ y < min ((row + 1) * s) h ∧ n * s ≤ x ∧ x < min ((n + 1) * s) w
      · obtain ⟨h1, h2, h3, h4⟩ := hC
        rw [if_pos ⟨h1, h2, h3, h4⟩]
        have h4' := Nat.lt_min.mp h4
        have hx : x / s = n := Nat.div_eq_of_lt_le h3 h4'.1
        rw [if_pos ⟨h1, h2, h4'.1, h4'.2⟩, hx]
      · rw [if_neg hC]
        by_cases hD : row * s ≤ y ∧ y < min ((row + 1) * s) h ∧ x < n * s ∧ x < w
        · obtain ⟨h1, h2, h3, h4⟩ := hD
          rw [if_pos ⟨h1, h2, h3, h4⟩,
            if_pos ⟨h1, h2, Nat.lt_of_lt_of_le h3 (Nat.mul_le_mul (Nat.le_succ n) (Nat.le_refl s)), h4⟩]
        · rw [if_neg hD]
          refine (if_neg (fun hD1 => ?_)).symm
          obtain ⟨h1, h2, h3, h4⟩ := hD1
          rcases Nat.lt_or_ge x (n * s) with hlt | hge
          · exact hD ⟨h1, h2, hlt, h4⟩
          · exact hC ⟨h1, h2, hge, Nat.lt_min.mpr ⟨h3, h4⟩⟩

/-- What painting the first `n` rows of `ncols` squares leaves at a pixel. -/
theorem paintRows_apply (h w s ncols : Nat) :
    ∀ (n : Nat) (img : Nat → Nat → Color) (x y : Nat),
      paintRows h w s ncols n img x y =
        if y < n * s ∧ y < h ∧ x < ncols * s ∧ x < w then
          squareColor (y / s) (x / s)
        else img x y := by
  intro n
  induction n with
  | zero =>
      intro img x y
      simp [paintRows]
  | succ n ih =>
      intro img x y
      show paintCols h w s n ncols (paintRows h w s ncols n img) x y = _
      rw [paintCols_apply, ih]
      by_cases hC : n * s ≤ y ∧ y < min ((n + 1) * s) h ∧ x < ncols * s ∧ x < w
      · obtain ⟨h1, h2, h3, h4⟩ := hC
        rw [if_pos ⟨h1, h2, h3, h4⟩]
        have h2' := Nat.lt_min.mp h2
        have hy : y / s = n := Nat.div_eq_of_lt_le h1 h2'.1
        rw [if_pos ⟨h2'.1, h2'.2, h3, h4⟩, hy]
      · rw [if_neg hC]
        by_cases hD : y < n * s ∧ y < h ∧ x < ncols * s ∧ x < w
        · obtain ⟨h1, h2, h3, h4⟩ := hD
          rw [if_pos ⟨h1, h2, h3, h4⟩,
            if_pos ⟨Nat.lt_of_lt_of_le h1 (Nat.mul_le_mul (Nat.le_succ n) (Nat.le_refl s)), h2, h3, h4⟩]
        · rw [if_neg hD]
          refine (if_neg (fun hD1 => ?_)).symm
          obtain ⟨h1, h2, h3, h4⟩ := hD1
          rcases Nat.lt_or_ge y (n * s) with hlt | hge
          · exact hD ⟨hlt, h2, h3, h4⟩
          · exact hC ⟨hge, Nat.lt_min.mpr ⟨h1, h2⟩, h3, h4⟩

/-- Pointwise description of the placeholder pixel grid: the checkerboard
parity colour on the fully painted `num_rows · s × num_cols · s` region, the
initial black fill beyond it. -/
theorem placeholder_pixels_apply (height width x y : Nat) :
    placeholder_pixels height width x y =
      if y < height / square_size height width * square_size height width ∧
         x < width / square_size height width * square_size height width then
        squareColor (y / square_size height width) (x / square_size height width)
      else black := by
  show paintRows height width (square_size height width)
      (width / square_size height width) (height / square_size height width)
      (fun _ _ => black) x y = _
  rw [paintRows_apply]
  refine if_congr ?_ rfl rfl
  constructor
  · rintro ⟨a, _, c, _⟩
    exact ⟨a, c⟩
  · rintro ⟨a, c⟩
    exact ⟨a, Nat.lt_of_lt_of_le a (Nat.div_mul_le_self height _), c,
      Nat.lt_of_lt_of_le c (Nat.div_mul_le_self width _)⟩

/-- Every placeholder pixel is pure black or pure white. -/
theorem placeholder_pixels_black_or_white (height width x y : Nat) :
    placeholder_pixels height width x y = black ∨ placeholder_pixels height width x y = white := by
  rw [placeholder_pixels_apply]
  split
  · unfold squareColor
    split
    · exact Or.inl rfl
    · exact Or.inr rfl
  · exact Or.inl rfl

/-! ## Scheduler-loop and sender-loop lemmas -/

/-- The current frame after running the scheduler over a list of outcomes:
the tensor of the last successful attempt, or whatever the slot held before
if no attempt succeeded. -/
theorem runGenerations_current_frame (outs : List (Outcome × Nat)) :
    ∀ s : WorkerState,
      (runGenerations s outs).current_frame =
        match lastSuccess outs with
        | some img => FrameVal.generated img
        | none => s.current_frame := by
  induction outs with
  | nil => intro s; rfl
  | cons p rest ih =>
      intro s
      obtain ⟨o, e⟩ := p
      show (runGenerations (generationStep s o e) rest).current_frame = _
      rw [ih]
      cases hl : lastSuccess rest with
      | some img => simp [lastSuccess, hl]
      | none => cases o <;> simp [lastSuccess, hl, generationStep]

/-- A successful `on_start` seeds `current_frame` with the placeholder built
from the updated configuration's dimensions, and resets the timestamp. -/
theorem on_start_spec (s : WorkerState) (params : Params) (s₁ : WorkerState)
    (h : on_start s params = some s₁) :
    s₁.current_frame = FrameVal.placeholder s₁.cfg.height s₁.cfg.width ∧
    s₁.frame_timestamp = 0 := by
  unfold on_start at h
  split at h
  · exact absurd h (by simp)
  · split at h
    · exact absurd h (by simp)
    · split at h
      · exact absurd h (by simp)
      · rw [← Option.some.inj h]
        exact ⟨rfl, rfl⟩

/-- Closed form of the sender trace: tick `j` (counting from tick `k` at
timestamp `ts`) emits the current frame and its silent-audio companion at
timestamp `ts + j · timestamp_increment`. -/
theorem send_frames_trace_eq (frames : Nat → FrameVal) :
    ∀ (n k : Nat) (ts : Int),
      send_frames_trace frames true k n ts =
        (List.range n).flatMap
          (fun j => [Emitted.video (frames (k + j)) (ts + j * timestamp_increment),
                     Emitted.audio (ts + j * timestamp_increment)]) := by
  intro n
  induction n with
  | zero => intro k ts; rfl
  | succ n ih =>
      intro k ts
      have hr : List.range (n + 1) = 0 :: (List.range n).map (· + 1) := by
        simpa using List.range_succ_eq_map n
      rw [hr, List.flatMap_cons, List.flatMap_map]
      show Emitted.video (frames k) ts :: Emitted.audio ts ::
          send_frames_trace frames true (k + 1) n (ts + timestamp_increment) = _
      rw [ih]
      simp only [Nat.cast_zero, zero_mul, add_zero, Nat.add_zero, List.cons_append,
        List.nil_append]
      refine congrArg _ (congrArg _ ?_)
      refine List.flatMap_congr (fun j _ => ?_)
      have h1 : k + 1 + j = k + (j + 1) := by omega
      have h2 : ts + timestamp_increment + (j : Int) * timestamp_increment =
          ts + ((j : Nat) + 1 : Nat) * timestamp_increment := by
        push_cast
        ring
      rw [h1, ← h2]

/-! ## `update_params` helper lemmas -/

/-- `update_params` never touches the prompt-guidance document loaded at
start-up. -/
theorem update_params_prompt_guidance_doc (cfg : InfiniteFlux2Config) (ps : Params) :
    (update_params cfg ps).cfg.prompt_guidance_doc = cfg.prompt_guidance_doc := by
  unfold update_params
  cases hh : pyInt (pget ps "height" (PVal.pint cfg.height)) with
  | none => rfl
  | some h =>
  dsimp only
  cases hw : pyInt (pget ps "width" (PVal.pint cfg.width)) with
  | none => rfl
  | some w =>
  dsimp only
  cases hst : pyInt (pget ps "steps" (PVal.pint cfg.steps)) with
  | none => rfl
  | some st =>
  dsimp only
  cases hg : pyFloat (pget ps "guidance_scale" (PVal.pfloat cfg.guidance_scale)) with
  | none => rfl
  | some g =>
  dsimp only
  cases hsd : pyInt (pget ps "seed" (PVal.pint cfg.seed)) with
  | none => rfl
  | some sd =>
  dsimp only
  cases hb : pyLower (pget ps "enhance_prompt" (PVal.pstr "no")) with
  | none => rfl
  | some b => rfl

/-- Full characterization of a successful `update_params` call: every field
of the resulting configuration is the coercion of the request value when the
key is present and of the previous value when it is absent — except
`enhance_prompt`, whose fallback is the literal string `"no"`, and the
derived `processed_reference_images` field, which is cleared
unconditionally. -/
theorem update_params_success_spec (cfg : InfiniteFlux2Config) (ps : Params)
    (hok : (update_params cfg ps).ok = true) :
    pyInt (pget ps "height" (.pint cfg.height)) = some (update_params cfg ps).cfg.height ∧
    pyInt (pget ps "width" (.pint cfg.width)) = some (update_params cfg ps).cfg.width ∧
    (update_params cfg ps).cfg.prompt = pget ps "prompt" cfg.prompt ∧
    pyInt (pget ps "steps" (.pint cfg.steps)) = some (update_params cfg ps).cfg.steps ∧
    pyFloat (pget ps "guidance_scale" (.pfloat cfg.guidance_scale)) =
      some (update_params cfg ps).cfg.guidance_scale ∧
    pyInt (pget ps "seed" (.pint cfg.seed)) = some (update_params cfg ps).cfg.seed ∧
    (update_params cfg ps).cfg.seed_adjustment = pget ps "seed_adjustment" cfg.seed_adjustment ∧
    (∃ b, pyLower (pget ps "enhance_prompt" (.pstr "no")) = some b ∧
      (update_params cfg ps).cfg.enhance_prompt = truthyString b) ∧
    (update_params cfg ps).cfg.enhance_guidance =
      pget ps "enhance_guidance" cfg.enhance_guidance ∧
    (update_params cfg ps).cfg.processed_reference_images = none ∧
    (update_params cfg ps).cfg.reference_images = cfg.reference_images ∧
    (update_params cfg ps).cfg.prompt_guidance_doc = cfg.prompt_guidance_doc := by
  unfold update_params at hok ⊢
  cases hh : pyInt (pget ps "height" (PVal.pint cfg.height)) with
  | none => rw [hh] at hok; exact absurd hok (by simp)
  | some h =>
  rw [hh] at hok; dsimp only at hok ⊢
  cases hw : pyInt (pget ps "width" (PVal.pint cfg.width)) with
  | none => rw [hw] at hok; exact absurd hok (by simp)
  | some w =>
  rw [hw] at hok; dsimp only at hok ⊢
  cases hst : pyInt (pget ps "steps" (PVal.pint cfg.steps)) with
  | none => rw [hst] at hok; exact absurd hok (by simp)
  | some st =>
  rw [hst] at hok; dsimp only at hok ⊢
  cases hg : pyFloat (pget ps "guidance_scale" (PVal.pfloat cfg.guidance_scale)) with
  | none => rw [hg] at hok; exact absurd hok (by simp)
  | some g =>
  rw [hg] at hok; dsimp only at hok ⊢
  cases hsd : pyInt (pget ps "seed" (PVal.pint cfg.seed)) with
  | none => rw [hsd] at hok; exact absurd hok (by simp)
  | some sd =>
  rw [hsd] at hok; dsimp only at hok ⊢
  cases hb : pyLower (pget ps "enhance_prompt" (PVal.pstr "no")) with
  | none => rw [hb] at hok; exact absurd hok (by simp)
  | some b =>
  exact ⟨rfl, rfl, rfl, rfl, rfl, rfl, rfl, ⟨b, rfl, rfl⟩, rfl, rfl, rfl, rfl⟩

/-- What a failed `update_params` call leaves behind: the fields assigned
after the point of failure — in particular `enhance_prompt`,
`enhance_guidance` and the derived `processed_reference_images` field, which
are the last assignments — keep their prior values, and when the very first
coercion (`height`) fails the configuration is entirely untouched. -/
theorem update_params_failure_spec (cfg : InfiniteFlux2Config) (ps : Params)
    (hfail : (update_params cfg ps).ok = false) :
    (update_params cfg ps).cfg.processed_reference_images = cfg.processed_reference_images ∧
    (update_params cfg ps).cfg.enhance_prompt = cfg.enhance_prompt ∧
    (update_params cfg ps).cfg.enhance_guidance = cfg.enhance_guidance ∧
    (update_params cfg ps).cfg.reference_images = cfg.reference_images ∧
    (update_params cfg ps).cfg.prompt_guidance_doc = cfg.prompt_guidance_doc ∧
    (pyInt (pget ps "height" (.pint cfg.height)) = none → update_params cfg ps = ⟨false, cfg⟩) := by
  have himp : pyInt (pget ps "height" (PVal.pint cfg.height)) = none →
      update_params cfg ps = ⟨false, cfg⟩ := by
    intro hnone
    unfold update_params
    rw [hnone]
  have hmain :
      (update_params cfg ps).cfg.processed_reference_images = cfg.processed_reference_images ∧
      (update_params cfg ps).cfg.enhance_prompt = cfg.enhance_prompt ∧
      (update_params cfg ps).cfg.enhance_guidance = cfg.enhance_guidance ∧
      (update_params cfg ps).cfg.reference_images = cfg.reference_images ∧
      (update_params cfg ps).cfg.prompt_guidance_doc = cfg.prompt_guidance_doc := by
    unfold update_params at hfail ⊢
    cases hh : pyInt (pget ps "height" (PVal.pint cfg.height)) with
    | none => exact ⟨rfl, rfl, rfl, rfl, rfl⟩
    | some h =>
    rw [hh] at hfail; dsimp only at hfail ⊢
    cases hw : pyInt (pget ps "width" (PVal.pint cfg.width)) with
    | none => exact ⟨rfl, rfl, rfl, rfl, rfl⟩
    | some w =>
    rw [hw] at hfail; dsimp only at hfail ⊢
    cases hst : pyInt (pget ps "steps" (PVal.pint cfg.steps)) with
    | none => exact ⟨rfl, rfl, rfl, rfl, rfl⟩
    | some st =>
    rw [hst] at hfail; dsimp only at hfail ⊢
    cases hg : pyFloat (pget ps "guidance_scale" (PVal.pfloat cfg.guidance_scale)) with
    | none => exact ⟨rfl, rfl, rfl, rfl, rfl⟩
    | some g =>
    rw [hg] at hfail; dsimp only at hfail ⊢
    cases hsd : pyInt (pget ps "seed" (PVal.pint cfg.seed)) with
    | none => exact ⟨rfl, rfl, rfl, rfl, rfl⟩
    | some sd =>
    rw [hsd] at hfail; dsimp only at hfail ⊢
    cases hb : pyLower (pget ps "enhance_prompt" (PVal.pstr "no")) with
    | none => exact ⟨rfl, rfl, rfl, rfl, rfl⟩
    | some b =>
    rw [hb] at hfail
    exact absurd hfail (by simp)
  exact ⟨hmain.1, hmain.2.1, hmain.2.2.1, hmain.2.2.2.1, hmain.2.2.2.2, himp⟩

/-! ## Claim theorems -/

/-- C1: for every interleaving of scheduler iterations (across all
`start`/`update_parameters`/`stop` sequences, which never release another
task's gate), at most one synthesis job is in the running state at any time:
the execution gate (`inference_lock`) is acquired only while no task holds
it, so an iteration attempting to start while a previous job holds the gate
must wait, and two synthesis invocations never run concurrently. -/
theorem c1_inference_mutual_exclusion {s : SchedState} (h : SchedReachable s) :
    (∀ t₁ t₂, s.phase t₁ = JobPhase.running → s.phase t₂ = JobPhase.running → t₁ = t₂) ∧
    (∀ s' t, SchedStep s s' → s.phase t = JobPhase.waiting → s'.phase t = JobPhase.running →
      s.lockHolder = none) := by
  have inv := runningHoldsLock_reachable h
  constructor
  · intro t₁ t₂ h₁ h₂
    have e₁ := inv t₁ h₁
    have e₂ := inv t₂ h₂
    rw [e₁] at e₂
    exact Option.some.inj e₂
  · intro s' t hst hw hr
    cases hst with
    | request u hu =>
        simp only at hr
        by_cases htu : t = u
        · rw [htu, if_pos rfl] at hr
          exact absurd hr (by simp)
        · rw [if_neg htu] at hr
          rw [hw] at hr
          exact absurd hr (by simp)
    | acquire u hu hlock =>
        exact hlock
    | release u hu =>
        simp only at hr
        by_cases htu : t = u
        · rw [htu, if_pos rfl] at hr
          exact absurd hr (by simp)
        · rw [if_neg htu] at hr
          rw [hw] at hr
          exact absurd hr (by simp)
    | restart u hu =>
        simp only at hr
        by_cases htu : t = u
        · rw [htu, if_pos rfl] at hr
          exact absurd hr (by simp)
        · rw [if_neg htu] at hr
          rw [hw] at hr
          exact absurd hr (by simp)

/-- Witness for C1: a concrete reachable state in which task 0 has acquired
the gate and is running. -/
theorem c1_inference_mutual_exclusion_witness :
    schedW2.phase 0 = JobPhase.running ∧ (0 : Nat) = 0 := by
  have hreach : SchedReachable schedW2 :=
    SchedReachable.step
      (SchedReachable.step SchedReachable.init (SchedStep.request initSched 0 rfl))
      (SchedStep.acquire schedW1 0 rfl rfl)
  exact ⟨rfl, (c1_inference_mutual_exclusion hreach).1 0 0 rfl rfl⟩

/-- C2 counterexample: with prompt enhancement enabled in the job's
snapshot, a mid-job `update_params` that changes `enhance_guidance` changes
the prompt the enhancement model produces — because `enhance_prompt` reads
`self.cfg.enhance_guidance` (the live configuration) rather than the
snapshot — so the pipeline invocation differs from the run without the
update.  The behaviour is exhibited with `echoGuidance` as the (opaque)
enhancement model. -/
theorem c2_live_guidance_counterexample :
    (update_params enhCfg guidanceUpdate).ok = true ∧
    run_inference_call echoGuidance enhCfg (update_params enhCfg guidanceUpdate).cfg ≠
      run_inference_call echoGuidance enhCfg enhCfg := by
  exact ⟨by decide, by decide⟩

/-- C2 (amended): a mid-job `update_parameters` never changes the running
job's snapshot, and the job's pipeline invocation — seed, reference images,
dimensions, guidance scale, steps, and the base prompt — is computed from
the snapshot alone; the job's output is unchanged by a mid-job update
whenever prompt enhancement is disabled in the snapshot or the update leaves
`enhance_guidance` unchanged, the one input the enhancement step reads from
the live configuration. -/
theorem c2_snapshot_isolation (enhanceFn : PVal → PVal → String → PVal)
    (cfg : InfiniteFlux2Config) (u : Params)
    (h : cfg.enhance_prompt = false ∨
      (update_params cfg u).cfg.enhance_guidance = cfg.enhance_guidance) :
    run_inference_call enhanceFn cfg (update_params cfg u).cfg =
      run_inference_call enhanceFn cfg cfg := by
  unfold run_inference_call
  cases h with
  | inl hfalse =>
      rw [hfalse]
      exact rfl
  | inr hg => rw [hg, update_params_prompt_guidance_doc]

/-- Witness for C2 (amended) at the default configuration (enhancement
disabled) and the guidance update. -/
theorem c2_snapshot_isolation_witness :
    run_inference_call echoGuidance {} (update_params {} guidanceUpdate).cfg =
      run_inference_call echoGuidance {} {} :=
  c2_snapshot_isolation echoGuidance {} guidanceUpdate (Or.inl rfl)

/-- C3: after a successful `on_start` seeded the frame holder with the
placeholder, running any sequence of synthesis attempts leaves the holder
containing the tensor of the last successful attempt — or still the
placeholder if every attempt was interrupted or failed.  Interrupted and
failed attempts never touch the holder. -/
theorem c3_frame_holder (s : WorkerState) (params : Params) (s₁ : WorkerState)
    (hstart : on_start s params = some s₁) (outs : List (Outcome × Nat)) :
    (runGenerations s₁ outs).current_frame =
      match lastSuccess outs with
      | some img => FrameVal.generated img
      | none => FrameVal.placeholder s₁.cfg.height s₁.cfg.width := by
  rw [runGenerations_current_frame]
  cases lastSuccess outs with
  | some img => rfl
  | none => exact (on_start_spec s params s₁ hstart).1

/-- Witness for C3: two consecutive non-successful attempts after a start
leave the placeholder in the holder. -/
theorem c3_frame_holder_witness :
    (runGenerations w1 [(Outcome.interrupted, 0), (Outcome.failure, 1)]).current_frame =
      FrameVal.placeholder 1024 1024 := by
  have hstart : on_start w0 [] = some w1 := by decide
  have h := c3_frame_holder w0 [] w1 hstart [(Outcome.interrupted, 0), (Outcome.failure, 1)]
  exact h.trans (by decide)

/-- C4: after a successful job, and only then, the seed in the live
configuration advances per the configured policy — `increment` adds exactly
1, `decrement` subtracts exactly 1, `random` lands in the full unsigned
32-bit range `[0, 2^32 - 1]`, and any other policy value (such as `fixed`)
leaves it unchanged; an interrupted or failed attempt never changes it. -/
theorem c4_seed_policy (s : WorkerState) (img entropy : Nat) :
    (s.cfg.seed_adjustment = PVal.pstr "increment" →
      (generationStep s (.success img) entropy).cfg.seed = s.cfg.seed + 1) ∧
    (s.cfg.seed_adjustment = PVal.pstr "decrement" →
      (generationStep s (.success img) entropy).cfg.seed = s.cfg.seed - 1) ∧
    (s.cfg.seed_adjustment = PVal.pstr "random" →
      0 ≤ (generationStep s (.success img) entropy).cfg.seed ∧
        (generationStep s (.success img) entropy).cfg.seed ≤ 2 ^ 32 - 1) ∧
    (s.cfg.seed_adjustment ≠ PVal.pstr "increment" →
      s.cfg.seed_adjustment ≠ PVal.pstr "decrement" →
      s.cfg.seed_adjustment ≠ PVal.pstr "random" →
      (generationStep s (.success img) entropy).cfg.seed = s.cfg.seed) ∧
    (generationStep s Outcome.interrupted entropy).cfg.seed = s.cfg.seed ∧
    (generationStep s Outcome.failure entropy).cfg.seed = s.cfg.seed := by
  refine ⟨?_, ?_, ?_, ?_, rfl, rfl⟩
  · intro h
    simp [generationStep, adjustSeed, h]
  · intro h
    simp [generationStep, adjustSeed, h]
  · intro h
    have hstep : (generationStep s (.success img) entropy).cfg.seed =
        pyRandint 0 (2 ^ 32 - 1) entropy := by
      simp [generationStep, adjustSeed, h]
    rw [hstep]
    unfold pyRandint
    have h32 : ((2 : Int) ^ 32 - 1 - 0 + 1) = 4294967296 := by norm_num
    rw [h32]
    have hnn := Int.emod_nonneg (entropy : Int) (show (4294967296 : Int) ≠ 0 by norm_num)
    have hlt := Int.emod_lt_of_pos (entropy : Int) (show (0 : Int) < 4294967296 by norm_num)
    constructor
    · omega
    · have : ((2 : Int) ^ 32 - 1) = 4294967295 := by norm_num
      omega
  · intro h1 h2 h3
    simp [generationStep, adjustSeed, h1, h2, h3]

/-- Witness for C4: the default `increment` policy takes the default seed 42
to 43 after a successful job. -/
theorem c4_seed_policy_witness :
    (generationStep w0 (Outcome.success 7) 0).cfg.seed = 42 + 1 :=
  (c4_seed_policy w0 7 0).1 rfl

/-- C5: `on_stop` always completes its teardown and returns without
surfacing an error: it sets the interrupt flag, waits — only when an
inference is in progress — at most the fixed 20-unit grace period (a
timeout is logged, never raised: teardown is identical for the timed-out
and the completed waits), drains the frame queue, cancels and clears the
background tasks; and it is idempotent, hence safe to call with no session
active. -/
theorem c5_stop_teardown (s : WorkerState) (w w' : WaitOutcome) :
    (on_stop s w).1.interrupt_requested = true ∧
    (on_stop s w).1.frame_queue = [] ∧
    (on_stop s w).1.background_tasks = [] ∧
    (on_stop s w).1.background_task_started = false ∧
    (on_stop s w).2.waitTimeout =
      (if s.inference_in_progress then some stop_grace_period else none) ∧
    (on_stop s WaitOutcome.timedOut).1 = (on_stop s WaitOutcome.completed).1 ∧
    (on_stop s WaitOutcome.timedOut).2.timeoutLogged = s.inference_in_progress ∧
    (on_stop (on_stop s w).1 w').1 = (on_stop s w).1 := by
  by_cases hb : s.inference_in_progress <;>
    simp [on_stop, hb]

/-- C6 counterexample: an update request whose `enhance_prompt` key is
absent does not keep the previous value — the fallback is the string
`"no"`, so the field is reset to `false` even by an empty request. -/
theorem c6_absent_field_counterexample :
    List.lookup "enhance_prompt" ([] : List (String × PVal)) = none ∧
    enhCfg.enhance_prompt = true ∧
    (update_params enhCfg []).ok = true ∧
    (update_params enhCfg []).cfg.enhance_prompt = false := by
  exact ⟨rfl, rfl, by decide, by decide⟩

/-- C6 (amended): a successful `update_params` call applies exactly the
fields present in the request, keeps every configuration field whose key is
absent — except `enhance_prompt`, which is recomputed from the fallback
string `"no"` and is therefore reset to `false` whenever its key is absent —
and clears the derived `processed_reference_images` field unconditionally. -/
theorem c6_update_applies_present_fields (cfg : InfiniteFlux2Config) (ps : Params)
    (hok : (update_params cfg ps).ok = true) :
    (List.lookup "height" (ps : List (String × PVal)) = none →
      (update_params cfg ps).cfg.height = cfg.height) ∧
    (List.lookup "width" (ps : List (String × PVal)) = none →
      (update_params cfg ps).cfg.width = cfg.width) ∧
    (List.lookup "prompt" (ps : List (String × PVal)) = none →
      (update_params cfg ps).cfg.prompt = cfg.prompt) ∧
    (List.lookup "steps" (ps : List (String × PVal)) = none →
      (update_params cfg ps).cfg.steps = cfg.steps) ∧
    (List.lookup "guidance_scale" (ps : List (String × PVal)) = none →
      (update_params cfg ps).cfg.guidance_scale = cfg.guidance_scale) ∧
    (List.lookup "seed" (ps : List (String × PVal)) = none →
      (update_params cfg ps).cfg.seed = cfg.seed) ∧
    (List.lookup "seed_adjustment" (ps : List (String × PVal)) = none →
      (update_params cfg ps).cfg.seed_adjustment = cfg.seed_adjustment) ∧
    (List.lookup "enhance_guidance" (ps : List (String × PVal)) = none →
      (update_params cfg ps).cfg.enhance_guidance = cfg.enhance_guidance) ∧
    (List.lookup "enhance_prompt" (ps : List (String × PVal)) = none →
      (update_params cfg ps).cfg.enhance_prompt = false) ∧
    (∀ v, List.lookup "prompt" (ps : List (String × PVal)) = some v →
      (update_params cfg ps).cfg.prompt = v) ∧
    (∀ v n, List.lookup "height" (ps : List (String × PVal)) = some v → pyInt v = some n →
      (update_params cfg ps).cfg.height = n) ∧
    (∀ v n, List.lookup "width" (ps : List (String × PVal)) = some v → pyInt v = some n →
      (update_params cfg ps).cfg.width = n) ∧
    (∀ v n, List.lookup "steps" (ps : List (String × PVal)) = some v → pyInt v = some n →
      (update_params cfg ps).cfg.steps = n) ∧
    (∀ v q, List.lookup "guidance_scale" (ps : List (String × PVal)) = some v →
      pyFloat v = some q → (update_params cfg ps).cfg.guidance_scale = q) ∧
    (∀ v n, List.lookup "seed" (ps : List (String × PVal)) = some v → pyInt v = some n →
      (update_params cfg ps).cfg.seed = n) ∧
    (∀ v, List.lookup "seed_adjustment" (ps : List (String × PVal)) = some v →
      (update_params cfg ps).cfg.seed_adjustment = v) ∧
    (∀ v, List.lookup "enhance_guidance" (ps : List (String × PVal)) = some v →
      (update_params cfg ps).cfg.enhance_guidance = v) ∧
    (update_params cfg ps).cfg.processed_reference_images = none := by
  obtain ⟨a1, a2, a3, a4, a5, a6, a7, ⟨b, hb, hbe⟩, a9, a10, _, _⟩ :=
    update_params_success_spec cfg ps hok
  refine ⟨?_, ?_, ?_, ?_, ?_, ?_, ?_, ?_, ?_, ?_, ?_, ?_, ?_, ?_, ?_, ?_, ?_, a10⟩
  · intro hn
    have h := a1
    simp only [pget, hn, pyInt] at h
    exact (Option.some.inj h).symm
  · intro hn
    have h := a2
    simp only [pget, hn, pyInt] at h
    exact (Option.some.inj h).symm
  · intro hn
    rw [a3]
    simp only [pget, hn]
  · intro hn
    have h := a4
    simp only [pget, hn, pyInt] at h
    exact (Option.some.inj h).symm
  · intro hn
    have h := a5
    simp only [pget, hn, pyFloat] at h
    exact (Option.some.inj h).symm
  · intro hn
    have h := a6
    simp only [pget, hn, pyInt] at h
    exact (Option.some.inj h).symm
  · intro hn
    rw [a7]
    simp only [pget, hn]
  · intro hn
    rw [a9]
    simp only [pget, hn]
  · intro hn
    have h := hb
    simp only [pget, hn, pyLower] at h
    rw [hbe, ← Option.some.inj h]
    decide
  · intro v hv
    rw [a3]
    simp only [pget, hv]
  · intro v n hv hvn
    have h := a1
    simp only [pget, hv, hvn] at h
    exact (Option.some.inj h).symm
  · intro v n hv hvn
    have h := a2
    simp only [pget, hv, hvn] at h
    exact (Option.some.inj h).symm
  · intro v n hv hvn
    have h := a4
    simp only [pget, hv, hvn] at h
    exact (Option.some.inj h).symm
  · intro v q hv hvq
    have h := a5
    simp only [pget, hv, hvq] at h
    exact (Option.some.inj h).symm
  · intro v n hv hvn
    have h := a6
    simp only [pget, hv, hvn] at h
    exact (Option.some.inj h).symm
  · intro v hv
    rw [a7]
    simp only [pget, hv]
  · intro v hv
    rw [a9]
    simp only [pget, hv]

/-- Witness for C6 (amended): a request setting only `height` applies it and
clears the derived field. -/
theorem c6_update_applies_present_fields_witness :
    (update_params {} [("height", PVal.pint 512)]).cfg.height = 512 ∧
    (update_params {} [("height", PVal.pint 512)]).cfg.processed_reference_images = none := by
  obtain ⟨_, _, _, _, _, _, _, _, _, _, hH, _, _, _, _, _, _, hrefs⟩ :=
    c6_update_applies_present_fields {} [("height", PVal.pint 512)] (by decide)
  exact ⟨hH (PVal.pint 512) 512 rfl rfl, hrefs⟩

/-- C7 counterexample: a request with a well-formed `height` and a malformed
`width` is rejected, but the already-assigned `height` keeps its new value —
the prior configuration is not left fully intact. -/
theorem c7_partial_update_counterexample :
    (update_params {} badUpdate).ok = false ∧
    (update_params {} badUpdate).cfg.height = 512 ∧
    ({} : InfiniteFlux2Config).height = 1024 := by
  exact ⟨by decide, by decide, rfl⟩

/-- C7 (amended): a malformed field value rejects that single update; the
derived `processed_reference_images` field and every field assigned at or
after the failing coercion keep their prior values — in particular
`enhance_prompt` and `enhance_guidance` never change on a failed call, and
if the first assigned field (`height`) is the malformed one the
configuration is entirely unchanged; fields assigned before the failing
coercion, however, retain their newly assigned values. -/
theorem c7_failed_update (cfg : InfiniteFlux2Config) (ps : Params)
    (hfail : (update_params cfg ps).ok = false) :
    (update_params cfg ps).cfg.processed_reference_images = cfg.processed_reference_images ∧
    (update_params cfg ps).cfg.enhance_prompt = cfg.enhance_prompt ∧
    (update_params cfg ps).cfg.enhance_guidance = cfg.enhance_guidance ∧
    (update_params cfg ps).cfg.prompt_guidance_doc = cfg.prompt_guidance_doc ∧
    (pyInt (pget ps "height" (.pint cfg.height)) = none →
      (update_params cfg ps).cfg = cfg) := by
  obtain ⟨h1, h2, h3, h4, h5, h6⟩ := update_params_failure_spec cfg ps hfail
  refine ⟨h1, h2, h3, h5, fun hn => ?_⟩
  rw [h6 hn]

/-- Witness for C7 (amended) at the malformed update: the derived field and
the trailing fields survive the failed call. -/
theorem c7_failed_update_witness :
    (update_params {} badUpdate).cfg.processed_reference_images = none ∧
    (update_params {} badUpdate).cfg.enhance_prompt = false := by
  have h := c7_failed_update {} badUpdate (by decide)
  exact ⟨h.1.trans rfl, h.2.1.trans rfl⟩

/-- C8: the frame-emission loop started at timestamp 0 emits video frames
whose timestamps form the arithmetic progression 0, 5625, 11250, … with
common difference exactly `time_base / fps = 90000 / 16 = 5625`,
independent of the frames the generator produced; with no independent audio
source, each video frame is followed by a silent audio frame at exactly the
same timestamp; and `on_start` resets the timestamp to 0. -/
theorem c8_emission_cadence (frames : Nat → FrameVal) (n : Nat) :
    send_frames_trace frames true 0 n 0 =
      (List.range n).flatMap
        (fun k => [Emitted.video (frames k) (k * 5625), Emitted.audio (k * 5625)]) ∧
    timestamp_increment = time_base / fps ∧
    timestamp_increment = 5625 ∧
    (∀ (s : WorkerState) (ps : Params) (s₁ : WorkerState),
      on_start s ps = some s₁ → s₁.frame_timestamp = 0) := by
  refine ⟨?_, rfl, rfl, fun s ps s₁ h => (on_start_spec s ps s₁ h).2⟩
  rw [send_frames_trace_eq]
  refine List.flatMap_congr (fun j _ => ?_)
  have hinc : timestamp_increment = 5625 := rfl
  simp [hinc]

/-- Witness for C8: applying the `on_start` clause at a concrete start. -/
theorem c8_emission_cadence_witness : w1.frame_timestamp = 0 := by
  have h := (c8_emission_cadence (fun _ => FrameVal.generated 0) 1).2.2.2
  exact h w0 [] w1 (by decide)

/-- C9 counterexample: at 100 x 100 the square side is 6, so the painted
grid covers only the leading 96 x 96 pixels.  Pixel (x, y) = (6, 96) lies in
grid square (row, col) = (16, 1) — odd parity, hence white under the
claim's rule — but the paint loop stops at `num_rows = 16` rows and the
pixel keeps the initial black fill. -/
theorem c9_checkerboard_counterexample :
    create_placeholder_frame 100 100 = .ok (placeholder_pixels 100 100) ∧
    placeholder_pixels 100 100 6 96 = black ∧
    specCheckerboardPixel 100 100 6 96 = white ∧
    placeholder_pixels 100 100 6 96 ≠ specCheckerboardPixel 100 100 6 96 := by
  exact ⟨rfl, by decide, by decide, by decide⟩

/-- C9 (amended): the placeholder is a pure deterministic function of the
configured (height, width): with square side `min(height, width) // 16`, the
pixel at `(x, y)` inside the painted `(height // s) * s` by `(width // s) * s`
region is black exactly when its grid square `(y // s) + (x // s)` has even
parity (and white otherwise), while pixels beyond the last complete square
row or column keep the image's initial black fill; the result is laid out as
a `[1, height, width, 3]` channel-last tensor whose entries lie in [0, 1]. -/
theorem c9_placeholder_checkerboard (height width x y c : Nat)
    (_hdim : 16 ≤ min height width) (_hy : y < height) (_hx : x < width) :
    (placeholder_pixels height width x y =
      if y < height / square_size height width * square_size height width ∧
         x < width / square_size height width * square_size height width then
        squareColor (y / square_size height width) (x / square_size height width)
      else black) ∧
    placeholderTensorShape height width = (1, height, width, 3) ∧
    0 ≤ placeholderTensorEntry height width y x c ∧
    placeholderTensorEntry height width y x c ≤ 1 := by
  have hval : colorComp (placeholder_pixels height width x y) c = 0 ∨
      colorComp (placeholder_pixels height width x y) c = 255 := by
    cases placeholder_pixels_black_or_white height width x y with
    | inl hb =>
        rw [hb]
        rcases c with _ | _ | c <;> simp [colorComp, black]
    | inr hw =>
        rw [hw]
        rcases c with _ | _ | c <;> simp [colorComp, white]
  refine ⟨placeholder_pixels_apply height width x y, rfl, ?_, ?_⟩
  · unfold placeholderTensorEntry
    rcases hval with hv | hv <;> rw [hv] <;> norm_num
  · unfold placeholderTensorEntry
    rcases hval with hv | hv <;> rw [hv] <;> norm_num

/-- Witness for C9 (amended) at the default 1024 x 1024 dimensions. -/
theorem c9_placeholder_checkerboard_witness :
    0 ≤ placeholderTensorEntry 1024 1024 0 0 0 ∧
    placeholderTensorEntry 1024 1024 0 0 0 ≤ 1 := by
  have h := c9_placeholder_checkerboard 1024 1024 0 0 0 (by decide) (by decide) (by decide)
  exact ⟨h.2.2.1, h.2.2.2⟩

/-- C10: for every positive-dimension configuration, placeholder creation
raises `ZeroDivisionError` exactly when `min(height, width) < 16` (the
computed square size `min // 16` is 0 and `height // square_size` divides by
zero, so stream start fails), and succeeds whenever
`min(height, width) >= 16`. -/
theorem c10_placeholder_min_dimension (height width : Int)
    (hh : 0 < height) (hw : 0 < width) :
    (min height width < 16 → create_placeholder_frame height width = .error .zeroDivision) ∧
    (16 ≤ min height width →
      create_placeholder_frame height width =
        .ok (placeholder_pixels height.toNat width.toNat)) := by
  constructor
  · intro hlt
    have h0 : square_size height.toNat width.toNat = 0 := by
      unfold square_size
      apply Nat.div_eq_of_lt
      omega
    unfold create_placeholder_frame
    rw [if_neg (by omega), if_pos h0]
  · intro hge
    have h0 : square_size height.toNat width.toNat ≠ 0 := by
      unfold square_size
      intro h0eq
      rw [Nat.div_eq_zero_iff (by norm_num)] at h0eq
      omega
    unfold create_placeholder_frame
    rw [if_neg (by omega), if_neg h0]

/-- Witness for C10: 8 x 8 divides by zero, 1024 x 1024 succeeds. -/
theorem c10_placeholder_min_dimension_witness :
    create_placeholder_frame 8 8 = .error .zeroDivision ∧
    create_placeholder_frame 1024 1024 =
      .ok (placeholder_pixels (Int.toNat 1024) (Int.toNat 1024)) := by
  exact ⟨(c10_placeholder_min_dimension 8 8 (by decide) (by decide)).1 (by decide),
    (c10_placeholder_min_dimension 1024 1024 (by decide) (by decide)).2 (by decide)⟩
